import Mathlib

/-!
Verification of `analyze_tips.py`.

Shallow embedding of the module: the helper `_to_bool_smoker` (smoker-flag
normalization), the numeric coercion `float(...)` on the tip field, and the
main routine `compare_avg_tip_by_smoker`, in both its record-iterable form
and its DataFrame (table) form.  Tip amounts are embedded as rationals:
Python's `statistics.mean` computes the sum exactly (via `Fraction`), so the
mean of a group is exactly `sum / length`.  Python string operations
(`strip`, `lower`, the string grammar of `float`) are modelled on the
character list of the string; `lower` is modelled on ASCII letters and the
exponent / infinity / underscore forms of `float`'s grammar are elided, as no
claim depends on them.  The optional scipy dependency is embedded as an
abstract capability: `none` when `from scipy import stats` raises, otherwise
`some f` where `f a b` is the p-value of
`stats.ttest_ind(a, b, equal_var=False, nan_policy='omit')`, with
`f a b = none` modelling a call that itself raises (the surrounding `except`
turns both failure modes into a `None` p-value).
-/

namespace AnalyzeTips

/-- A Python value as it can appear in the `smoker` field of a record:
`None` (also the result of `rec.get` on a missing key), a `bool`, a `str`,
or some other value reached through `str(val)` (an `int` in this model). -/
inductive PyVal where
  | none : PyVal
  | bool (b : Bool) : PyVal
  | str (s : String) : PyVal
  | int (n : Int) : PyVal
deriving DecidableEq

/-- Python `str(val)` for the values of `PyVal`: `str(True) = "True"`,
`str(False) = "False"`, a string is itself, an integer prints in decimal. -/
def pyStr : PyVal → String
  | PyVal.none => "None"
  | PyVal.bool true => "True"
  | PyVal.bool false => "False"
  | PyVal.str s => s
  | PyVal.int n => toString n

/-- Python `str.lower` on one character (ASCII range). -/
def lowerChar (c : Char) : Char :=
  if 65 ≤ c.toNat ∧ c.toNat ≤ 90 then Char.ofNat (c.toNat + 32) else c

/-- Python `str.strip()`: drop leading and trailing whitespace. -/
def stripChars (cs : List Char) : List Char :=
  ((cs.dropWhile Char.isWhitespace).reverse.dropWhile Char.isWhitespace).reverse

/-- `str(val).strip().lower()` as a character list. -/
def stripLower (s : String) : List Char :=
  (stripChars s.data).map lowerChar

/-- The affirmative token set `("yes", "y", "true", "t", "1")`. -/
def yesTokens : List (List Char) :=
  ["yes".data, "y".data, "true".data, "t".data, "1".data]

/-- The negative token set `("no", "n", "false", "f", "0")`. -/
def noTokens : List (List Char) :=
  ["no".data, "n".data, "false".data, "f".data, "0".data]

/-- `_to_bool_smoker(val)` (the leading underscore is dropped for Lean):
`None` stays unknown; a `bool` passes through; any other value is sent
through `str(val).strip().lower()` and matched against the affirmative and
negative token sets; anything unrecognized is `None`. -/
def to_bool_smoker (val : PyVal) : Option Bool :=
  match val with
  | PyVal.none => Option.none
  | PyVal.bool b => some b
  | v =>
    let s := stripLower (pyStr v)
    if s ∈ yesTokens then some true
    else if s ∈ noTokens then some false
    else Option.none

/-- A Python value as it can appear in the `tip` field: a number, a string
(which `float` may or may not parse), or `None` (missing key; `float(None)`
raises). -/
inductive TipVal where
  | num (q : ℚ) : TipVal
  | str (s : String) : TipVal
  | none : TipVal

/-- Value of a list of decimal digit characters. -/
def digitsVal (cs : List Char) : ℕ :=
  cs.foldl (fun a c => 10 * a + (c.toNat - 48)) 0

/-- Parse an unsigned decimal numeral, optionally with a fractional part,
as Python `float` accepts (`"3"`, `"3.5"`, `"3."`, `".5"`). -/
def parseUnsigned (cs : List Char) : Option ℚ :=
  let p := cs.span (fun c => c ≠ '.')
  match p.2 with
  | [] =>
    if p.1 ≠ [] ∧ p.1.all Char.isDigit then some (digitsVal p.1) else Option.none
  | _ :: b =>
    if b.all (fun c => c ≠ '.') ∧ (p.1 ≠ [] ∨ b ≠ []) ∧
        p.1.all Char.isDigit ∧ b.all Char.isDigit then
      some ((digitsVal p.1 : ℚ) + (digitsVal b : ℚ) / (10 ^ b.length))
    else Option.none

/-- Python `float(s)` on a string: surrounding whitespace is stripped, an
optional sign is accepted, then a decimal numeral; `none` models a raised
`ValueError` (e.g. `float("abc")`). -/
def parseFloat (s : String) : Option ℚ :=
  match stripChars s.data with
  | '+' :: rest => parseUnsigned rest
  | '-' :: rest => (parseUnsigned rest).map Neg.neg
  | cs => parseUnsigned cs

/-- `float(rec.get('tip', rec.get('Tip')))`: a number coerces to itself, a
string goes through `float`'s string grammar, `None` raises (`none`). -/
def tipToFloat : TipVal → Option ℚ
  | TipVal.num q => some q
  | TipVal.str s => parseFloat s
  | TipVal.none => Option.none

/-- One input record, already resolved through the case-variant key lookup:
`smoker` is `rec.get('smoker', rec.get('Smoker'))` (with `PyVal.none` for a
record carrying neither key) and `tip` is `rec.get('tip', rec.get('Tip'))`. -/
structure Record where
  smoker : PyVal
  tip : TipVal

/-- The tip a record appends to `tips_smoker`: present exactly when `float`
succeeds on the tip and the normalized smoker flag is `True`. -/
def smokerTip (r : Record) : Option ℚ :=
  match tipToFloat r.tip, to_bool_smoker r.smoker with
  | some t, some true => some t
  | _, _ => Option.none

/-- The tip a record appends to `tips_non`: present exactly when `float`
succeeds on the tip and the normalized smoker flag is `False`. -/
def nonSmokerTip (r : Record) : Option ℚ :=
  match tipToFloat r.tip, to_bool_smoker r.smoker with
  | some t, some false => some t
  | _, _ => Option.none

/-- The `tips_smoker` list built by the record loop, in input order. -/
def tips_smoker (recs : List Record) : List ℚ :=
  recs.filterMap smokerTip

/-- The `tips_non` list built by the record loop, in input order. -/
def tips_non (recs : List Record) : List ℚ :=
  recs.filterMap nonSmokerTip

/-- `safe_mean(lst)`: `statistics.mean(lst)` when the list is non-empty
(`mean` is exact: the sum is accumulated as a `Fraction`), `None` otherwise. -/
def safe_mean (lst : List ℚ) : Option ℚ :=
  if lst = [] then Option.none else some (lst.sum / lst.length)

/-- The scipy capability: `none` when `from scipy import stats` raises;
`some f` when the import succeeds, `f a b` being the p-value of
`stats.ttest_ind(a, b, equal_var=False, nan_policy='omit')`, with
`f a b = none` modelling a call that itself raises. -/
abbrev Scipy := Option (List ℚ → List ℚ → Option ℚ)

/-- The `ttest_pvalue` value stored when `do_ttest` is set: `None` when
the scipy import fails, when either group is empty, or when the call
raises. -/
def ttestValue (scipy : Scipy) (a b : List ℚ) : Option ℚ :=
  match scipy with
  | Option.none => Option.none
  | some f => if a ≠ [] ∧ b ≠ [] then f a b else Option.none

/-- The dictionary returned by `compare_avg_tip_by_smoker`.  The
`ttest_pvalue` field is `none` when the key is absent (`do_ttest=False`) and
`some p` when the key is present with value `p` (itself possibly `None`). -/
structure Summary where
  n_smoker : ℕ
  n_non_smoker : ℕ
  avg_tip_smoker : Option ℚ
  avg_tip_non_smoker : Option ℚ
  difference : Option ℚ
  ttest_pvalue : Option (Option ℚ)
deriving DecidableEq

/-- The summary-building tail of `compare_avg_tip_by_smoker`, shared by the
record-iterable and DataFrame branches. -/
def summarize (scipy : Scipy) (ts tn : List ℚ) (do_ttest : Bool) : Summary :=
  let avg_smoker := safe_mean ts
  let avg_non := safe_mean tn
  { n_smoker := ts.length
    n_non_smoker := tn.length
    avg_tip_smoker := avg_smoker
    avg_tip_non_smoker := avg_non
    difference :=
      match avg_smoker, avg_non with
      | some a, some b => some (a - b)
      | _, _ => Option.none
    ttest_pvalue := if do_ttest then some (ttestValue scipy ts tn) else Option.none }

/-- `compare_avg_tip_by_smoker(records, do_ttest)` on an iterable of
records. -/
def compare_avg_tip_by_smoker (scipy : Scipy) (records : List Record)
    (do_ttest : Bool) : Summary :=
  summarize scipy (tips_smoker records) (tips_non records) do_ttest

/-- A pandas DataFrame input: its column names and, for each row, the values
found under the `smoker` and `tip` columns. -/
structure Table where
  columns : List String
  rows : List Record

/-- The message of the `ValueError` raised on a DataFrame missing a required
column (the source quotes the column names; the quote characters are
elided here). -/
def schemaErrorMsg : String :=
  "DataFrame must contain tip and smoker columns"

/-- `compare_avg_tip_by_smoker` on a DataFrame: the missing-column check
raises `ValueError`, then each row is routed exactly as in the record
loop. -/
def compare_on_table (scipy : Scipy) (df : Table) (do_ttest : Bool) :
    Except String Summary :=
  if "tip" ∈ df.columns ∧ "smoker" ∈ df.columns then
    Except.ok (summarize scipy (tips_smoker df.rows) (tips_non df.rows) do_ttest)
  else
    Except.error schemaErrorMsg

/-- The sample dataset from the `__main__` block / the spec scenario. -/
def sampleRecords : List Record :=
  [ ⟨PyVal.str "No", TipVal.num 3⟩
  , ⟨PyVal.str "Yes", TipVal.num 5⟩
  , ⟨PyVal.str "No", TipVal.num (5/2)⟩
  , ⟨PyVal.str "Yes", TipVal.num 4⟩
  , ⟨PyVal.str "No", TipVal.num (7/2)⟩ ]

end AnalyzeTips

namespace AnalyzeTips

/-- The affirmative and negative token sets are disjoint. -/
lemma tokens_disjoint (cs : List Char) (h1 : cs ∈ yesTokens) : cs ∉ noTokens := by
  fin_cases h1 <;> intro h2 <;> exact absurd h2 (by decide)

/-- A record whose tip fails `float` contributes to neither list. -/
lemma smokerTip_eq_none_of_tip (r : Record) (h : tipToFloat r.tip = Option.none) :
    smokerTip r = Option.none := by
  simp [smokerTip, h]

/-- A record whose tip fails `float` contributes to neither list. -/
lemma nonSmokerTip_eq_none_of_tip (r : Record) (h : tipToFloat r.tip = Option.none) :
    nonSmokerTip r = Option.none := by
  simp [nonSmokerTip, h]

/-- A record with an unrecognized smoker flag contributes to neither list. -/
lemma smokerTip_eq_none_of_flag (r : Record) (h : to_bool_smoker r.smoker = Option.none) :
    smokerTip r = Option.none := by
  cases htf : tipToFloat r.tip <;> simp [smokerTip, h, htf]

/-- A record with an unrecognized smoker flag contributes to neither list. -/
lemma nonSmokerTip_eq_none_of_flag (r : Record) (h : to_bool_smoker r.smoker = Option.none) :
    nonSmokerTip r = Option.none := by
  cases htf : tipToFloat r.tip <;> simp [nonSmokerTip, h, htf]

/-- Deleting a record that contributes to neither list leaves the whole
summary unchanged, wherever the record sits in the input. -/
lemma skip_record (scipy : Scipy) (b : Bool) (l₁ l₂ : List Record) (r : Record)
    (hs : smokerTip r = Option.none) (hn : nonSmokerTip r = Option.none) :
    compare_avg_tip_by_smoker scipy (l₁ ++ r :: l₂) b =
      compare_avg_tip_by_smoker scipy (l₁ ++ l₂) b := by
  unfold compare_avg_tip_by_smoker tips_smoker tips_non
  rw [List.filterMap_append, List.filterMap_append, List.filterMap_cons_none hs,
    List.filterMap_cons_none hn, ← List.filterMap_append, ← List.filterMap_append]

/-- C1: on the five-record sample, the summary has two smokers averaging
4.5, three non-smokers averaging 3.0, and difference 1.5. -/
theorem sample_summary :
    compare_avg_tip_by_smoker Option.none sampleRecords false =
      { n_smoker := 2
        n_non_smoker := 3
        avg_tip_smoker := some (9/2)
        avg_tip_non_smoker := some 3
        difference := some (3/2)
        ttest_pvalue := Option.none } := by
  have hs : tips_smoker sampleRecords = [5, 4] := rfl
  have hn : tips_non sampleRecords = [3, 5/2, 7/2] := rfl
  simp only [compare_avg_tip_by_smoker, hs, hn, summarize, safe_mean, ttestValue,
    Summary.mk.injEq]
  norm_num [List.cons_ne_nil]

/-- C2: booleans pass through `_to_bool_smoker` unchanged; a string is
stripped and lower-cased, yielding `True` exactly on the affirmative tokens,
`False` exactly on the negative tokens, and `None` on everything else. -/
theorem smoker_flag_normalization :
    (∀ b : Bool, to_bool_smoker (PyVal.bool b) = some b) ∧
    (∀ s : String,
      (to_bool_smoker (PyVal.str s) = some true ↔ stripLower s ∈ yesTokens) ∧
      (to_bool_smoker (PyVal.str s) = some false ↔ stripLower s ∈ noTokens) ∧
      (to_bool_smoker (PyVal.str s) = Option.none ↔
        stripLower s ∉ yesTokens ∧ stripLower s ∉ noTokens)) := by
  refine ⟨fun b => rfl, fun s => ?_⟩
  by_cases h1 : stripLower s ∈ yesTokens <;> by_cases h2 : stripLower s ∈ noTokens <;>
    simp [to_bool_smoker, pyStr, h1, h2]
  exact absurd h2 (tokens_disjoint _ h1)

/-- C10: a smoker value that is neither `None`, a `bool` nor a `str` is
classified through its `str()` form (stripped and lower-cased) against the
token sets — so the integer 1 counts as `True` and 0 as `False` — while
`None` is unknown, and a record whose flag is unknown is skipped outright. -/
theorem smoker_flag_via_str :
    (∀ n : Int, to_bool_smoker (PyVal.int n) =
      (if stripLower (pyStr (PyVal.int n)) ∈ yesTokens then some true
       else if stripLower (pyStr (PyVal.int n)) ∈ noTokens then some false
       else Option.none)) ∧
    to_bool_smoker (PyVal.int 1) = some true ∧
    to_bool_smoker (PyVal.int 0) = some false ∧
    to_bool_smoker PyVal.none = Option.none ∧
    (∀ (scipy : Scipy) (b : Bool) (l₁ l₂ : List Record) (r : Record),
      to_bool_smoker r.smoker = Option.none →
      compare_avg_tip_by_smoker scipy (l₁ ++ r :: l₂) b =
        compare_avg_tip_by_smoker scipy (l₁ ++ l₂) b) := by
  refine ⟨fun n => rfl, by decide, by decide, rfl, ?_⟩
  intro scipy b l₁ l₂ r h
  exact skip_record scipy b l₁ l₂ r (smokerTip_eq_none_of_flag r h)
    (nonSmokerTip_eq_none_of_flag r h)

/-- Witness for C10: the integer 7 has an unrecognized string form, and a
record carrying it is dropped from the sample without changing the result. -/
theorem smoker_flag_via_str_witness :
    to_bool_smoker (PyVal.int 7) = Option.none ∧
    compare_avg_tip_by_smoker Option.none
        (sampleRecords ++ Record.mk (PyVal.int 7) (TipVal.num 1) :: []) false =
      compare_avg_tip_by_smoker Option.none (sampleRecords ++ []) false :=
  ⟨by decide, smoker_flag_via_str.2.2.2.2 Option.none false sampleRecords []
    (Record.mk (PyVal.int 7) (TipVal.num 1)) (by decide)⟩

/-- C4: a record whose tip field `float` cannot coerce is skipped entirely:
deleting it from the input, wherever it sits, leaves the summary unchanged
(and the total function raises nothing). -/
theorem uncoercible_tip_skipped (scipy : Scipy) (b : Bool) (l₁ l₂ : List Record)
    (r : Record) (h : tipToFloat r.tip = Option.none) :
    compare_avg_tip_by_smoker scipy (l₁ ++ r :: l₂) b =
      compare_avg_tip_by_smoker scipy (l₁ ++ l₂) b :=
  skip_record scipy b l₁ l₂ r (smokerTip_eq_none_of_tip r h)
    (nonSmokerTip_eq_none_of_tip r h)

/-- Witness for C4: `float("abc")` fails, so a record with tip `"abc"` in
the middle of the sample is excluded silently. -/
theorem uncoercible_tip_skipped_witness :
    tipToFloat (TipVal.str "abc") = Option.none ∧
    compare_avg_tip_by_smoker Option.none
        (sampleRecords ++ Record.mk (PyVal.str "Yes") (TipVal.str "abc") :: sampleRecords)
        false =
      compare_avg_tip_by_smoker Option.none (sampleRecords ++ sampleRecords) false :=
  ⟨by decide, uncoercible_tip_skipped Option.none false sampleRecords sampleRecords
    (Record.mk (PyVal.str "Yes") (TipVal.str "abc")) (by decide)⟩

/-- C3: an empty group reports mean `None` (not zero, not an error); the
difference is exactly smoker mean minus non-smoker mean when both means
exist and `None` when either is missing; and with an empty group the
p-value stays `None` even when the test is requested. -/
theorem empty_group_unknowns (scipy : Scipy) (recs : List Record) (b : Bool) :
    ((compare_avg_tip_by_smoker scipy recs b).n_smoker = 0 →
      (compare_avg_tip_by_smoker scipy recs b).avg_tip_smoker = Option.none) ∧
    ((compare_avg_tip_by_smoker scipy recs b).n_non_smoker = 0 →
      (compare_avg_tip_by_smoker scipy recs b).avg_tip_non_smoker = Option.none) ∧
    (∀ a c : ℚ, (compare_avg_tip_by_smoker scipy recs b).avg_tip_smoker = some a →
      (compare_avg_tip_by_smoker scipy recs b).avg_tip_non_smoker = some c →
      (compare_avg_tip_by_smoker scipy recs b).difference = some (a - c)) ∧
    ((compare_avg_tip_by_smoker scipy recs b).avg_tip_smoker = Option.none ∨
      (compare_avg_tip_by_smoker scipy recs b).avg_tip_non_smoker = Option.none →
      (compare_avg_tip_by_smoker scipy recs b).difference = Option.none) ∧
    ((compare_avg_tip_by_smoker scipy recs b).n_smoker = 0 ∨
      (compare_avg_tip_by_smoker scipy recs b).n_non_smoker = 0 → b = true →
      (compare_avg_tip_by_smoker scipy recs b).ttest_pvalue = some Option.none) := by
  unfold compare_avg_tip_by_smoker summarize
  refine ⟨?_, ?_, ?_, ?_, ?_⟩
  · intro h
    simp only [List.length_eq_zero] at h
    simp [safe_mean, h]
  · intro h
    simp only [List.length_eq_zero] at h
    simp [safe_mean, h]
  · intro a c ha hc
    simp only at ha hc
    simp [ha, hc]
  · intro h
    rcases h with h | h <;> simp only at h <;> simp [h]
  · intro h hb
    subst hb
    have hnil : tips_smoker recs = [] ∨ tips_non recs = [] := by
      simpa [List.length_eq_zero] using h
    cases scipy with
    | none => simp [ttestValue]
    | some f =>
      rcases hnil with h' | h' <;> simp [ttestValue, h']

/-- Witness for C3: on the empty input both groups are empty, so both means,
the difference and the requested p-value are all `None`. -/
theorem empty_group_unknowns_witness :
    (compare_avg_tip_by_smoker Option.none [] true).avg_tip_smoker = Option.none ∧
    (compare_avg_tip_by_smoker Option.none [] true).difference = Option.none ∧
    (compare_avg_tip_by_smoker Option.none [] true).ttest_pvalue = some Option.none := by
  have h := empty_group_unknowns Option.none [] true
  exact ⟨h.1 rfl, h.2.2.2.1 (Or.inl (h.1 rfl)), h.2.2.2.2 (Or.inl rfl) rfl⟩

/-- C5: a DataFrame missing the `tip` or the `smoker` column fails with the
`ValueError` whose message names the missing column (it spells out both
required columns, in particular `smoker`). -/
theorem missing_column_schema_error (scipy : Scipy) (b : Bool) (df : Table)
    (h : "tip" ∉ df.columns ∨ "smoker" ∉ df.columns) :
    compare_on_table scipy df b = Except.error schemaErrorMsg ∧
    (∃ x y, schemaErrorMsg = x ++ "tip" ++ y) ∧
    (∃ x y, schemaErrorMsg = x ++ "smoker" ++ y) := by
  refine ⟨?_, ⟨"DataFrame must contain ", " and smoker columns", by decide⟩,
    ⟨"DataFrame must contain tip and ", " columns", by decide⟩⟩
  unfold compare_on_table
  rcases h with h | h <;> simp [h]

/-- Witness for C5: a table with only a `tip` column (missing `smoker`)
fails with the schema error, which names `smoker`. -/
theorem missing_column_schema_error_witness :
    compare_on_table Option.none (Table.mk ["tip"] []) false =
        Except.error schemaErrorMsg ∧
    (∃ x y, schemaErrorMsg = x ++ "smoker" ++ y) := by
  have h := missing_column_schema_error Option.none false (Table.mk ["tip"] [])
    (Or.inr (by decide))
  exact ⟨h.1, h.2.2⟩

/-- C6: when the test is requested with scipy importable and both groups
non-empty, the attached p-value is exactly the `ttest_ind` result (Welch,
`equal_var=False`); in every other requested case the attached p-value is
`None`; when requested the key is always present (nothing is raised); when
not requested the key is absent. -/
theorem ttest_attachment (scipy : Scipy) (recs : List Record) (b : Bool) :
    (b = false → (compare_avg_tip_by_smoker scipy recs b).ttest_pvalue = Option.none) ∧
    (b = true → ∀ f, scipy = some f → tips_smoker recs ≠ [] → tips_non recs ≠ [] →
      (compare_avg_tip_by_smoker scipy recs b).ttest_pvalue =
        some (f (tips_smoker recs) (tips_non recs))) ∧
    (b = true →
      scipy = Option.none ∨ tips_smoker recs = [] ∨ tips_non recs = [] →
      (compare_avg_tip_by_smoker scipy recs b).ttest_pvalue = some Option.none) ∧
    (b = true → ∃ p : Option ℚ,
      (compare_avg_tip_by_smoker scipy recs b).ttest_pvalue = some p) := by
  unfold compare_avg_tip_by_smoker summarize
  refine ⟨?_, ?_, ?_, ?_⟩
  · intro hb; subst hb; simp
  · intro hb f hf h1 h2
    subst hb; subst hf
    simp [ttestValue, h1, h2]
  · intro hb h
    subst hb
    rcases h with h | h | h
    · subst h; simp [ttestValue]
    · cases scipy <;> simp [ttestValue, h]
    · cases scipy <;> simp [ttestValue, h]
  · intro hb; subst hb; simp

/-- Witness for C6: with an importable scipy whose test returns 1 on the
sample (both groups non-empty), that value is attached; with no scipy the
attached value is `None`; with the test not requested the key is absent. -/
theorem ttest_attachment_witness :
    (compare_avg_tip_by_smoker (some (fun _ _ => some 1)) sampleRecords true).ttest_pvalue =
        some (some 1) ∧
    (compare_avg_tip_by_smoker Option.none sampleRecords true).ttest_pvalue =
        some Option.none ∧
    (compare_avg_tip_by_smoker Option.none sampleRecords false).ttest_pvalue =
        Option.none := by
  refine ⟨?_, ?_, ?_⟩
  · have h := (ttest_attachment (some (fun _ _ => some 1)) sampleRecords true).2.1 rfl
      (fun _ _ => some 1) rfl (by decide) (by decide)
    simpa using h
  · exact (ttest_attachment Option.none sampleRecords true).2.2.1 rfl (Or.inl rfl)
  · exact (ttest_attachment Option.none sampleRecords false).1 rfl

end AnalyzeTips

namespace AnalyzeTips

/-- A record is skipped by the loop when its tip fails `float` or its
smoker flag normalizes to `None`. -/
def skipped (r : Record) : Bool :=
  (tipToFloat r.tip).isNone || (to_bool_smoker r.smoker).isNone

/-- The length of a `filterMap` counts the elements the function keeps. -/
lemma length_filterMap_eq_countP (f : Record → Option ℚ) (l : List Record) :
    (l.filterMap f).length = l.countP (fun a => (f a).isSome) := by
  induction l with
  | nil => rfl
  | cons x xs ih =>
    cases hx : f x <;> simp [List.filterMap_cons, hx, List.countP_cons, ih]

/-- Every record lands in exactly one of: the smoker list, the non-smoker
list, or the skipped set. -/
lemma partition_count (recs : List Record) :
    (tips_smoker recs).length + (tips_non recs).length +
      recs.countP (fun r => skipped r) = recs.length := by
  induction recs with
  | nil => rfl
  | cons r rs ih =>
    simp only [tips_smoker, tips_non] at ih
    cases htf : tipToFloat r.tip with
    | none =>
      have h1 := smokerTip_eq_none_of_tip r htf
      have h2 := nonSmokerTip_eq_none_of_tip r htf
      have hsk : skipped r = true := by simp [skipped, htf]
      simp [tips_smoker, tips_non, List.filterMap_cons, h1, h2, List.countP_cons, hsk]
      omega
    | some t =>
      cases hfl : to_bool_smoker r.smoker with
      | none =>
        have h1 := smokerTip_eq_none_of_flag r hfl
        have h2 := nonSmokerTip_eq_none_of_flag r hfl
        have hsk : skipped r = true := by simp [skipped, hfl]
        simp [tips_smoker, tips_non, List.filterMap_cons, h1, h2, List.countP_cons, hsk]
        omega
      | some bb =>
        have hsk : skipped r = false := by simp [skipped, htf, hfl]
        cases bb with
        | true =>
          have h1 : smokerTip r = some t := by simp [smokerTip, htf, hfl]
          have h2 : nonSmokerTip r = Option.none := by simp [nonSmokerTip, htf, hfl]
          simp [tips_smoker, tips_non, List.filterMap_cons, h1, h2, List.countP_cons, hsk]
          omega
        | false =>
          have h1 : smokerTip r = Option.none := by simp [smokerTip, htf, hfl]
          have h2 : nonSmokerTip r = some t := by simp [nonSmokerTip, htf, hfl]
          simp [tips_smoker, tips_non, List.filterMap_cons, h1, h2, List.countP_cons, hsk]
          omega

/-- C7: the smoker count is exactly the number of records routed to the
smoker list and likewise for non-smokers; no record can be routed to both;
the two counts sum to at most the number of input records, with equality
exactly when no record is skipped. -/
theorem partition_invariant (scipy : Scipy) (recs : List Record) (b : Bool) :
    (compare_avg_tip_by_smoker scipy recs b).n_smoker =
        recs.countP (fun r => (smokerTip r).isSome) ∧
    (compare_avg_tip_by_smoker scipy recs b).n_non_smoker =
        recs.countP (fun r => (nonSmokerTip r).isSome) ∧
    (∀ r : Record, ¬((smokerTip r).isSome = true ∧ (nonSmokerTip r).isSome = true)) ∧
    (compare_avg_tip_by_smoker scipy recs b).n_smoker +
        (compare_avg_tip_by_smoker scipy recs b).n_non_smoker ≤ recs.length ∧
    ((compare_avg_tip_by_smoker scipy recs b).n_smoker +
        (compare_avg_tip_by_smoker scipy recs b).n_non_smoker = recs.length ↔
      ∀ r ∈ recs, skipped r = false) := by
  have hc := partition_count recs
  have hn1 : (compare_avg_tip_by_smoker scipy recs b).n_smoker =
      (tips_smoker recs).length := rfl
  have hn2 : (compare_avg_tip_by_smoker scipy recs b).n_non_smoker =
      (tips_non recs).length := rfl
  refine ⟨?_, ?_, ?_, ?_, ?_⟩
  · rw [hn1]; exact length_filterMap_eq_countP smokerTip recs
  · rw [hn2]; exact length_filterMap_eq_countP nonSmokerTip recs
  · intro r ⟨h1, h2⟩
    cases htf : tipToFloat r.tip with
    | none => rw [smokerTip_eq_none_of_tip r htf] at h1; exact absurd h1 (by simp)
    | some t =>
      cases hfl : to_bool_smoker r.smoker with
      | none => rw [smokerTip_eq_none_of_flag r hfl] at h1; exact absurd h1 (by simp)
      | some bb =>
        cases bb with
        | true =>
          have : nonSmokerTip r = Option.none := by simp [nonSmokerTip, htf, hfl]
          rw [this] at h2; exact absurd h2 (by simp)
        | false =>
          have : smokerTip r = Option.none := by simp [smokerTip, htf, hfl]
          rw [this] at h1; exact absurd h1 (by simp)
  · rw [hn1, hn2]; omega
  · rw [hn1, hn2]
    have hzero : (tips_smoker recs).length + (tips_non recs).length = recs.length ↔
        recs.countP (fun r => skipped r) = 0 := by omega
    rw [hzero, List.countP_eq_zero]
    simp

/-- Witness for C7: on the sample no record is skipped, so the counts sum
exactly to the number of records. -/
theorem partition_invariant_witness :
    (compare_avg_tip_by_smoker Option.none sampleRecords false).n_smoker +
      (compare_avg_tip_by_smoker Option.none sampleRecords false).n_non_smoker =
        sampleRecords.length :=
  (partition_invariant Option.none sampleRecords false).2.2.2.2.mpr (by decide)

/-- Permuted lists are empty together. -/
lemma perm_nil_iff {α : Type} {l₁ l₂ : List α} (h : l₁.Perm l₂) : l₁ = [] ↔ l₂ = [] := by
  rw [← List.length_eq_zero, ← List.length_eq_zero, h.length_eq]

/-- `safe_mean` does not depend on the order of its list. -/
lemma safe_mean_perm {l₁ l₂ : List ℚ} (h : l₁.Perm l₂) : safe_mean l₁ = safe_mean l₂ := by
  unfold safe_mean
  by_cases h1 : l₁ = []
  · have h2 : l₂ = [] := (perm_nil_iff h).mp h1
    simp [h1, h2]
  · have h2 : l₂ ≠ [] := fun hh => h1 ((perm_nil_iff h).mpr hh)
    rw [if_neg h1, if_neg h2, h.sum_eq, h.length_eq]

/-- C8: permuting the input records leaves the whole summary unchanged
(counts, means, difference and p-value), provided the external test — when
one is importable — does not itself depend on sample order. -/
theorem order_independent (scipy : Scipy) (b : Bool) (l₁ l₂ : List Record)
    (hp : l₁.Perm l₂)
    (hf : ∀ f, scipy = some f → ∀ a₁ a₂ c₁ c₂ : List ℚ, a₁.Perm a₂ → c₁.Perm c₂ →
      f a₁ c₁ = f a₂ c₂) :
    compare_avg_tip_by_smoker scipy l₁ b = compare_avg_tip_by_smoker scipy l₂ b := by
  have hs : (tips_smoker l₁).Perm (tips_smoker l₂) := hp.filterMap smokerTip
  have hn : (tips_non l₁).Perm (tips_non l₂) := hp.filterMap nonSmokerTip
  have e5 : ttestValue scipy (tips_smoker l₁) (tips_non l₁) =
      ttestValue scipy (tips_smoker l₂) (tips_non l₂) := by
    cases scipy with
    | none => rfl
    | some f =>
      simp only [ttestValue]
      by_cases h1 : tips_smoker l₁ = []
      · have h1' := (perm_nil_iff hs).mp h1
        simp [h1, h1']
      · have h1' : tips_smoker l₂ ≠ [] := fun hh => h1 ((perm_nil_iff hs).mpr hh)
        by_cases h2 : tips_non l₁ = []
        · have h2' := (perm_nil_iff hn).mp h2
          simp [h2, h2']
        · have h2' : tips_non l₂ ≠ [] := fun hh => h2 ((perm_nil_iff hn).mpr hh)
          rw [if_pos ⟨h1, h2⟩, if_pos ⟨h1', h2'⟩]
          exact hf f rfl _ _ _ _ hs hn
  unfold compare_avg_tip_by_smoker summarize
  rw [hs.length_eq, hn.length_eq, safe_mean_perm hs, safe_mean_perm hn, e5]

/-- Witness for C8: swapping two records (with no scipy importable) gives
the same summary. -/
theorem order_independent_witness :
    compare_avg_tip_by_smoker Option.none
        [Record.mk (PyVal.str "Yes") (TipVal.num 5),
         Record.mk (PyVal.str "No") (TipVal.num 3)] true =
      compare_avg_tip_by_smoker Option.none
        [Record.mk (PyVal.str "No") (TipVal.num 3),
         Record.mk (PyVal.str "Yes") (TipVal.num 5)] true :=
  order_independent Option.none true _ _
    (List.Perm.swap (Record.mk (PyVal.str "No") (TipVal.num 3))
      (Record.mk (PyVal.str "Yes") (TipVal.num 5)) [])
    (fun f h => nomatch h)

/-- A left fold of `min` is a lower bound of the starting value and the
folded list. -/
lemma foldl_min_le (xs : List ℚ) : ∀ x y : ℚ, y ∈ x :: xs → xs.foldl min x ≤ y := by
  induction xs with
  | nil =>
    intro x y hy
    rcases List.mem_cons.mp hy with h | h
    · subst h; exact le_refl _
    · exact absurd h (List.not_mem_nil _)
  | cons z zs ih =>
    intro x y hy
    simp only [List.foldl_cons]
    have hle : List.foldl min (min x z) zs ≤ min x z :=
      ih (min x z) (min x z) (List.mem_cons_self _ _)
    rcases List.mem_cons.mp hy with h | h
    · subst h; exact le_trans hle (min_le_left _ _)
    · rcases List.mem_cons.mp h with h' | h'
      · subst h'; exact le_trans hle (min_le_right _ _)
      · exact ih (min x z) y (List.mem_cons_of_mem _ h')

/-- A left fold of `max` is an upper bound of the starting value and the
folded list. -/
lemma le_foldl_max (xs : List ℚ) : ∀ x y : ℚ, y ∈ x :: xs → y ≤ xs.foldl max x := by
  induction xs with
  | nil =>
    intro x y hy
    rcases List.mem_cons.mp hy with h | h
    · subst h; exact le_refl _
    · exact absurd h (List.not_mem_nil _)
  | cons z zs ih =>
    intro x y hy
    simp only [List.foldl_cons]
    have hle : max x z ≤ List.foldl max (max x z) zs :=
      ih (max x z) (max x z) (List.mem_cons_self _ _)
    rcases List.mem_cons.mp hy with h | h
    · subst h; exact le_trans (le_max_left _ _) hle
    · rcases List.mem_cons.mp h with h' | h'
      · subst h'; exact le_trans (le_max_right _ _) hle
      · exact ih (max x z) y (List.mem_cons_of_mem _ h')

/-- A lower bound on every element bounds the sum from below. -/
lemma mul_length_le_sum (l : List ℚ) (c : ℚ) (h : ∀ y ∈ l, c ≤ y) :
    c * l.length ≤ l.sum := by
  induction l with
  | nil => simp
  | cons x xs ih =>
    have hx := h x (List.mem_cons_self _ _)
    have hxs := ih (fun y hy => h y (List.mem_cons_of_mem _ hy))
    simp only [List.sum_cons, List.length_cons]
    push_cast
    linarith

/-- An upper bound on every element bounds the sum from above. -/
lemma sum_le_mul_length (l : List ℚ) (c : ℚ) (h : ∀ y ∈ l, y ≤ c) :
    l.sum ≤ c * l.length := by
  induction l with
  | nil => simp
  | cons x xs ih =>
    have hx := h x (List.mem_cons_self _ _)
    have hxs := ih (fun y hy => h y (List.mem_cons_of_mem _ hy))
    simp only [List.sum_cons, List.length_cons]
    push_cast
    linarith

/-- The minimum of a non-empty list of tips (`none` on the empty list). -/
def listMin : List ℚ → Option ℚ
  | [] => Option.none
  | x :: xs => some (xs.foldl min x)

/-- The maximum of a non-empty list of tips (`none` on the empty list). -/
def listMax : List ℚ → Option ℚ
  | [] => Option.none
  | x :: xs => some (xs.foldl max x)

/-- On a non-empty list, `safe_mean` is between the minimum and the
maximum. -/
lemma safe_mean_between (l : List ℚ) (h : l ≠ []) :
    ∃ mn mx m : ℚ, listMin l = some mn ∧ listMax l = some mx ∧
      safe_mean l = some m ∧ mn ≤ m ∧ m ≤ mx := by
  cases l with
  | nil => exact absurd rfl h
  | cons x xs =>
    have hlen : (0:ℚ) < ((x :: xs).length : ℚ) := by
      simp only [List.length_cons]
      push_cast
      positivity
    refine ⟨xs.foldl min x, xs.foldl max x, (x :: xs).sum / ((x :: xs).length : ℚ),
      rfl, rfl, by simp [safe_mean], ?_, ?_⟩
    · rw [le_div_iff₀ hlen]
      exact mul_length_le_sum (x :: xs) _ (foldl_min_le xs x)
    · rw [div_le_iff₀ hlen]
      exact sum_le_mul_length (x :: xs) _ (le_foldl_max xs x)

/-- C9: each non-empty group's reported mean lies between the smallest and
the largest tip routed to that group. -/
theorem mean_within_bounds (scipy : Scipy) (recs : List Record) (b : Bool) :
    (tips_smoker recs ≠ [] → ∃ mn mx m : ℚ,
      listMin (tips_smoker recs) = some mn ∧ listMax (tips_smoker recs) = some mx ∧
      (compare_avg_tip_by_smoker scipy recs b).avg_tip_smoker = some m ∧
      mn ≤ m ∧ m ≤ mx) ∧
    (tips_non recs ≠ [] → ∃ mn mx m : ℚ,
      listMin (tips_non recs) = some mn ∧ listMax (tips_non recs) = some mx ∧
      (compare_avg_tip_by_smoker scipy recs b).avg_tip_non_smoker = some m ∧
      mn ≤ m ∧ m ≤ mx) := by
  constructor
  · intro h
    obtain ⟨mn, mx, m, h1, h2, h3, h4, h5⟩ := safe_mean_between (tips_smoker recs) h
    exact ⟨mn, mx, m, h1, h2, h3, h4, h5⟩
  · intro h
    obtain ⟨mn, mx, m, h1, h2, h3, h4, h5⟩ := safe_mean_between (tips_non recs) h
    exact ⟨mn, mx, m, h1, h2, h3, h4, h5⟩

/-- Witness for C9: the smoker group of the sample is non-empty and its
mean lies between its extremes. -/
theorem mean_within_bounds_witness :
    ∃ mn mx m : ℚ,
      listMin (tips_smoker sampleRecords) = some mn ∧
      listMax (tips_smoker sampleRecords) = some mx ∧
      (compare_avg_tip_by_smoker Option.none sampleRecords false).avg_tip_smoker = some m ∧
      mn ≤ m ∧ m ≤ mx :=
  (mean_within_bounds Option.none sampleRecords false).1 (by decide)

end AnalyzeTips
